import Mathlib

/-!
Shallow embedding of the smart-todo-ai task service: the `Database` data-access
layer (lib/db), the `AIService` gateway boundary (lib/ai-service), and the
`/api/tasks` route handlers (POST, PUT, DELETE), together with theorems about
the design contract they implement.

Modelling conventions:
* SQL timestamps, ISO timestamp strings and dates are abstracted as naturals in
  a single totally ordered clock; `0` encodes the empty string (which is falsy
  in JavaScript, like `undefined`/`null`).  Nullable columns are `Option`.
* A table is a `List` of rows; `INSERT` appends, `UPDATE ... WHERE id` maps over
  the list, `DELETE ... WHERE id` filters, `ORDER BY` sorts by the comparator
  the SQL spells out.  Parameterized statements are modelled by their
  relational meaning.
* The external generative-completion call (`generateObject`) is an oracle
  parameter; its output is the schema-validated object the zod schema admits.
-/

namespace SmartTodo

/-- Task row: the `tasks` table and the `Task` interface of lib/db.  `priority`
is an integer (1=High, 2=Medium, 3=Low), `status` a string column with no CHECK
constraint, `completed_at` nullable and absent from the INSERT of
`Database.createTask`. -/
structure Task where
  id : Nat
  user_id : Nat
  title : String
  description : Option String
  priority : Int
  status : String
  deadline : Option Nat
  ai_suggested_priority : Option Int
  ai_suggested_deadline : Option Nat
  context_tags : Option (List String)
  created_at : Nat
  updated_at : Nat
  completed_at : Option Nat
deriving DecidableEq, Repr

/-- ContextEntry row: the `context_entries` table of lib/db.  `entry_date` is a
date (day number), `created_at` a timestamp. -/
structure ContextEntry where
  id : Nat
  user_id : Nat
  content : String
  entry_type : String
  entry_date : Nat
  created_at : Nat
deriving DecidableEq, Repr

/-- The `taskData` object the POST /tasks handler assembles before its terminal
`Database.createTask` call (string fields already defaulted, optional fields
`undefined` = `none`). -/
structure TaskData where
  user_id : Nat
  title : String
  description : String
  priority : Int
  status : String
  deadline : Option Nat
  ai_suggested_priority : Option Int
  ai_suggested_deadline : Option Nat
  context_tags : List String
deriving DecidableEq, Repr

/-- JavaScript `x || null` on an optional timestamp/ISO-string value: both the
missing value and the falsy empty value collapse to SQL NULL. -/
def orNullNat (x : Option Nat) : Option Nat :=
  match x with
  | some v => if v = 0 then none else some v
  | none => none

/-- JavaScript `x || null` on an optional numeric value: `0` is falsy. -/
def orNullInt (x : Option Int) : Option Int :=
  match x with
  | some v => if v = 0 then none else some v
  | none => none

/-- `Database.createTask`: `INSERT INTO tasks (...) VALUES (...) RETURNING *`.
`completed_at` is not in the column list, so it is NULL; `created_at` and
`updated_at` take the statement time; `task.description || null` turns the
empty string into NULL; `task.context_tags || null` keeps every array (arrays
are truthy in JavaScript, even when empty); the `|| null` on the AI fields and
the deadline collapses falsy values to NULL. -/
def Database.createTask (td : TaskData) (now id : Nat) : Task :=
  { id := id
    user_id := td.user_id
    title := td.title
    description := if td.description = "" then none else some td.description
    priority := td.priority
    status := td.status
    deadline := orNullNat td.deadline
    ai_suggested_priority := orNullInt td.ai_suggested_priority
    ai_suggested_deadline := orNullNat td.ai_suggested_deadline
    context_tags := some td.context_tags
    created_at := now
    updated_at := now
    completed_at := none }

/-- Row lookup by primary key: the `WHERE id = ${id}` target row of
`Database.updateTask` (ids are unique, so the first match is the match). -/
def Database.findTask (tasks : List Task) (id : Nat) : Option Task :=
  tasks.find? (fun t => t.id == id)

/-- The subset of task columns the PUT /tasks/[id] route can place into its
`updates` object (`Partial<Task>` as the route actually builds it); `none`
means the key is absent (`undefined`), and `Database.updateTask` filters
absent keys out of its SET clause. -/
structure TaskUpdates where
  title : Option String
  description : Option String
  priority : Option Int
  status : Option String
  deadline : Option Nat
  completed_at : Option Nat
deriving DecidableEq, Repr

/-- Effect of `UPDATE tasks SET <present fields>, updated_at = CURRENT_TIMESTAMP`
on one row: exactly the keys present in `updates` are written, and
`updated_at` is always refreshed. -/
def applySet (t : Task) (u : TaskUpdates) (now : Nat) : Task :=
  { t with
    title := u.title.getD t.title
    description := match u.description with | some d => some d | none => t.description
    priority := u.priority.getD t.priority
    status := u.status.getD t.status
    deadline := match u.deadline with | some d => some d | none => t.deadline
    completed_at := match u.completed_at with | some c => some c | none => t.completed_at
    updated_at := now }

/-- `Database.updateTask`: updates the row matching `id` (if any) and returns
the first `RETURNING *` row — which is `undefined` (here `none`) when no row
matched; no error is raised and the table is untouched in that case. -/
def Database.updateTask (tasks : List Task) (id : Nat) (u : TaskUpdates) (now : Nat) :
    List Task × Option Task :=
  (tasks.map (fun t => if t.id = id then applySet t u now else t),
   (Database.findTask tasks id).map (fun t => applySet t u now))

/-- `Database.deleteTask`: `DELETE FROM tasks WHERE id = ${id}`; removes every
row with the id and succeeds whether or not one existed. -/
def Database.deleteTask (tasks : List Task) (id : Nat) : List Task :=
  tasks.filter (fun t => t.id != id)

/-- First ORDER BY key of `Database.getTasks`:
`CASE WHEN status = 'completed' THEN 1 ELSE 0 END`. -/
def completedBucket (t : Task) : Nat :=
  if t.status = "completed" then 1 else 0

/-- `deadline ASC NULLS LAST`, null flag: NULL sorts after every value. -/
def deadlineNull (t : Task) : Nat :=
  match t.deadline with
  | some _ => 0
  | none => 1

/-- `deadline ASC NULLS LAST`, value component (irrelevant when NULL). -/
def deadlineVal (t : Task) : Nat := t.deadline.getD 0

/-- The ORDER BY comparator of `Database.getTasks` as a boolean total preorder:
completed bucket, then `priority ASC`, then `deadline ASC NULLS LAST`, then
`created_at DESC`. -/
def taskLE (a b : Task) : Bool :=
  decide (completedBucket a < completedBucket b) ||
  (decide (completedBucket a = completedBucket b) &&
   (decide (a.priority < b.priority) ||
    (decide (a.priority = b.priority) &&
     (decide (deadlineNull a < deadlineNull b) ||
      (decide (deadlineNull a = deadlineNull b) &&
       (decide (deadlineVal a < deadlineVal b) ||
        (decide (deadlineVal a = deadlineVal b) &&
         decide (b.created_at ≤ a.created_at))))))))

/-- `taskLE` as a relation. -/
def taskOrd : Task → Task → Prop := fun a b => taskLE a b = true

instance taskOrd.decRel : DecidableRel taskOrd :=
  fun a b => instDecidableEqBool (taskLE a b) true

theorem completedBucket_le_one (t : Task) : completedBucket t ≤ 1 := by
  unfold completedBucket
  split <;> omega

theorem taskLE_trans (a b c : Task) (h1 : taskLE a b = true) (h2 : taskLE b c = true) :
    taskLE a c = true := by
  simp only [taskLE, Bool.or_eq_true, Bool.and_eq_true, decide_eq_true_eq] at h1 h2 ⊢
  omega

theorem taskLE_total (a b : Task) : (taskLE a b || taskLE b a) = true := by
  simp only [taskLE, Bool.or_eq_true, Bool.and_eq_true, decide_eq_true_eq]
  omega

instance taskOrd.isTrans : IsTrans Task taskOrd :=
  ⟨taskLE_trans⟩

instance taskOrd.isTotal : IsTotal Task taskOrd :=
  ⟨fun a b => Bool.or_eq_true_iff.mp (taskLE_total a b)⟩

/-- `Database.getTasks`: `SELECT * FROM tasks WHERE user_id = ${userId} ORDER BY
CASE WHEN status = 'completed' THEN 1 ELSE 0 END, priority ASC,
deadline ASC NULLS LAST, created_at DESC`; the ORDER BY is modelled as sorting
the user's rows by the `taskOrd` comparator. -/
def Database.getTasks (userId : Nat) (tasks : List Task) : List Task :=
  List.insertionSort taskOrd (tasks.filter (fun t => t.user_id == userId))

/-- The ORDER BY comparator of `Database.getContextEntries`:
`entry_date DESC, created_at DESC`. -/
def ctxLE (a b : ContextEntry) : Bool :=
  decide (b.entry_date < a.entry_date) ||
  (decide (a.entry_date = b.entry_date) && decide (b.created_at ≤ a.created_at))

/-- `ctxLE` as a relation. -/
def ctxOrd : ContextEntry → ContextEntry → Prop := fun a b => ctxLE a b = true

instance ctxOrd.decRel : DecidableRel ctxOrd :=
  fun a b => instDecidableEqBool (ctxLE a b) true

theorem ctxLE_trans (a b c : ContextEntry) (h1 : ctxLE a b = true) (h2 : ctxLE b c = true) :
    ctxLE a c = true := by
  simp only [ctxLE, Bool.or_eq_true, Bool.and_eq_true, decide_eq_true_eq] at h1 h2 ⊢
  omega

theorem ctxLE_total (a b : ContextEntry) : (ctxLE a b || ctxLE b a) = true := by
  simp only [ctxLE, Bool.or_eq_true, Bool.and_eq_true, decide_eq_true_eq]
  omega

instance ctxOrd.isTrans : IsTrans ContextEntry ctxOrd :=
  ⟨ctxLE_trans⟩

instance ctxOrd.isTotal : IsTotal ContextEntry ctxOrd :=
  ⟨fun a b => Bool.or_eq_true_iff.mp (ctxLE_total a b)⟩

/-- `Database.getContextEntries`: `SELECT * FROM context_entries WHERE
user_id = ${userId} AND entry_date >= CURRENT_DATE - INTERVAL '${days} days'
ORDER BY entry_date DESC, created_at DESC`.  `today` models `CURRENT_DATE`;
the WHERE clause is only a lower bound on `entry_date`. -/
def Database.getContextEntries (userId today days : Nat)
    (entries : List ContextEntry) : List ContextEntry :=
  List.insertionSort ctxOrd
    (entries.filter (fun e => e.user_id == userId && decide (today - days ≤ e.entry_date)))

/-- One recommended task as validated by `TaskRecommendationsSchema`. -/
structure Recommendation where
  title : String
  description : String
  priority : Int
  reasoning : String
  contextTags : List String
deriving DecidableEq, Repr

/-- Output of `AIService.suggestTaskPriority` as validated by
`TaskSuggestionSchema` (the zod schema bounds `priority` to `[1, 3]` and marks
`deadline` as an optional ISO string). -/
structure TaskSuggestion where
  priority : Int
  deadline : Option Nat
  reasoning : String
  contextTags : List String
deriving DecidableEq, Repr

/-- Output of `AIService.parseNaturalLanguageTask` as validated by its inline
zod schema. -/
structure ParsedTask where
  title : String
  description : String
  priority : Int
  deadline : Option Nat
  contextTags : List String
deriving DecidableEq, Repr

/-- The `"<entry_type>: <content>"` line every gateway prompt renders a context
entry into. -/
def contextLine (e : ContextEntry) : String :=
  e.entry_type ++ ": " ++ e.content

/-- `AIService.recommendTasks`: joins the rendered context lines; if the
summary is empty (JavaScript falsy — exactly when there are no entries) it
returns `[]` without calling `generateObject`; otherwise the validated
`recommendations` array is whatever the external service (the oracle
`service`, fed the context summary and the existing task titles) returns.
The boolean records whether the external service was invoked. -/
def AIService.recommendTasks (contextEntries : List ContextEntry)
    (existingTasks : List Task)
    (service : String → String → List Recommendation) :
    List Recommendation × Bool :=
  let contextSummary := String.intercalate "\n" (contextEntries.map contextLine)
  if contextSummary = "" then ([], false)
  else
    (service contextSummary (String.intercalate "\n" (existingTasks.map (fun t => t.title))),
     true)

/-- JSON body of POST /api/tasks as the handler destructures it.  `none` means
the key is absent.  `priority`, `status` and `completed_at` are carried to
record that the handler never reads them; `useAI` and `naturalLanguage` are
the values after the `= false` destructuring defaults. -/
structure PostBody where
  userId : Option Nat
  title : Option String
  description : Option String
  priority : Option Int
  status : Option String
  completed_at : Option Nat
  useAI : Bool
  naturalLanguage : Bool
deriving DecidableEq, Repr

/-- The `taskData` literal the POST handler starts from: caller description
defaulted by `description || ""`, priority hard-coded to 3, status
`"pending"`, no deadline, no AI fields, empty tag list. -/
def baseTaskData (uid : Nat) (ttl desc : String) : TaskData :=
  { user_id := uid
    title := ttl
    description := desc
    priority := 3
    status := "pending"
    deadline := none
    ai_suggested_priority := none
    ai_suggested_deadline := none
    context_tags := [] }

/-- The POST /api/tasks handler up to its terminal `Database.createTask` call:
validates `userId` and `title` (JavaScript falsiness rejects `0` and `""` as
well as absence, answering 400 = `none`), then branches: `naturalLanguage`
replaces title/description/priority/deadline/context_tags with the parse
result; otherwise `useAI` stores the suggestion in the `ai_suggested_*` fields
and promotes it to `priority`/`deadline` (`deadline` only when truthy);
otherwise the base data is kept.  The gateway outputs enter as the oracle
values `parsed` and `suggestion`. -/
def postTaskData (body : PostBody) (suggestion : TaskSuggestion)
    (parsed : ParsedTask) : Option TaskData :=
  match body.userId, body.title with
  | some uid, some ttl =>
    if uid = 0 ∨ ttl = "" then none
    else if body.naturalLanguage then
      some { baseTaskData uid ttl (body.description.getD "") with
        title := parsed.title
        description := parsed.description
        priority := parsed.priority
        deadline := parsed.deadline
        context_tags := parsed.contextTags }
    else if body.useAI then
      some { baseTaskData uid ttl (body.description.getD "") with
        ai_suggested_priority := some suggestion.priority
        ai_suggested_deadline := suggestion.deadline
        priority := suggestion.priority
        context_tags := suggestion.contextTags
        deadline := match suggestion.deadline with
          | some d => if d = 0 then none else some d
          | none => none }
    else some (baseTaskData uid ttl (body.description.getD ""))
  | _, _ => none

/-- Full POST /api/tasks: the handler followed by `Database.createTask` with
the generated id and the statement time; `none` is the 400 response. -/
def postTask (body : PostBody) (suggestion : TaskSuggestion) (parsed : ParsedTask)
    (now id : Nat) : Option Task :=
  (postTaskData body suggestion parsed).map (fun td => Database.createTask td now id)

/-- JSON body of PUT /api/tasks/[id] as the route reads it: any subset of
title, description, priority, status, deadline. -/
structure PutBody where
  title : Option String
  description : Option String
  priority : Option Int
  status : Option String
  deadline : Option Nat
deriving DecidableEq, Repr

/-- The `updates` object the PUT route builds: each defined body field is
copied, and `completed_at` is stamped with the request time exactly when the
incoming status is `"completed"`; it is never cleared otherwise. -/
def putUpdates (body : PutBody) (now : Nat) : TaskUpdates :=
  { title := body.title
    description := body.description
    priority := body.priority
    status := body.status
    deadline := body.deadline
    completed_at := if body.status = some "completed" then some now else none }

/-- Full PUT /api/tasks/[id]: build `updates`, then `Database.updateTask`. -/
def putTask (tasks : List Task) (id : Nat) (body : PutBody) (now : Nat) :
    List Task × Option Task :=
  Database.updateTask tasks id (putUpdates body now) now

/-- Valid status values: the TS union type and the schema comment for the
`status` column. -/
def validStatus (s : String) : Prop :=
  s = "pending" ∨ s = "in_progress" ∨ s = "completed"

instance validStatus.dec (s : String) : Decidable (validStatus s) := by
  unfold validStatus
  infer_instance

/-- The Task invariant of the design document: priority in {1,2,3}, status a
valid status, and completed_at set exactly when the status written last was
completed. -/
def TaskInvariant (t : Task) : Prop :=
  (1 ≤ t.priority ∧ t.priority ≤ 3) ∧ validStatus t.status ∧
  (t.completed_at.isSome = true ↔ t.status = "completed")

instance TaskInvariant.dec (t : Task) : Decidable (TaskInvariant t) := by
  unfold TaskInvariant
  infer_instance

/-- One Task-writing request: a POST /tasks (with the schema-validated gateway
outputs and per-request clock and generated id) or a PUT /tasks/[id]. -/
inductive TaskOp where
  | post : PostBody → TaskSuggestion → ParsedTask → Nat → Nat → TaskOp
  | put : Nat → PutBody → Nat → TaskOp
deriving DecidableEq, Repr

/-- Effect of one request on the tasks table (a 400/failed POST writes
nothing). -/
def applyOp (tasks : List Task) : TaskOp → List Task
  | TaskOp.post body s p now id =>
    match postTask body s p now id with
    | some t => tasks ++ [t]
    | none => tasks
  | TaskOp.put id body now => (putTask tasks id body now).1

/-- Request-validity conditions: gateway outputs respect the zod `[1, 3]`
priority bounds; a PUT supplies (if at all) a priority in {1,2,3} and a valid
status, and supplies a non-completed status only when no task with the target
id is currently completed. -/
def okOp (tasks : List Task) : TaskOp → Bool
  | TaskOp.post _ s p _ _ =>
    decide (1 ≤ s.priority) && decide (s.priority ≤ 3) &&
    decide (1 ≤ p.priority) && decide (p.priority ≤ 3)
  | TaskOp.put id body _ =>
    (match body.priority with
     | some pr => decide (1 ≤ pr) && decide (pr ≤ 3)
     | none => true) &&
    (match body.status with
     | some st =>
       decide (validStatus st) &&
       (st == "completed" ||
        tasks.all (fun t => !(t.id == id) || !(t.status == "completed")))
     | none => true)

/-- All requests of a trace are valid at the state they execute in. -/
def okTrace (tasks : List Task) : List TaskOp → Bool
  | [] => true
  | op :: ops => okOp tasks op && okTrace (applyOp tasks op) ops

/-- State after a trace of requests. -/
def applyOps (tasks : List Task) : List TaskOp → List Task
  | [] => tasks
  | op :: ops => applyOps (applyOp tasks op) ops

theorem postTaskData_status (body : PostBody) (s : TaskSuggestion) (p : ParsedTask)
    (td : TaskData) (h : postTaskData body s p = some td) : td.status = "pending" := by
  unfold postTaskData at h
  split at h
  · split at h
    · exact absurd h (by simp)
    · split at h
      · cases h
        rfl
      · split at h
        · cases h
          rfl
        · cases h
          rfl
  · exact absurd h (by simp)

theorem postTaskData_priority (body : PostBody) (s : TaskSuggestion) (p : ParsedTask)
    (td : TaskData) (h : postTaskData body s p = some td) :
    td.priority = 3 ∨ td.priority = p.priority ∨ td.priority = s.priority := by
  unfold postTaskData at h
  split at h
  · split at h
    · exact absurd h (by simp)
    · split at h
      · cases h
        exact Or.inr (Or.inl rfl)
      · split at h
        · cases h
          exact Or.inr (Or.inr rfl)
        · cases h
          exact Or.inl rfl
  · exact absurd h (by simp)

theorem createTask_invariant (td : TaskData) (now id : Nat)
    (hp : 1 ≤ td.priority ∧ td.priority ≤ 3) (hs : td.status = "pending") :
    TaskInvariant (Database.createTask td now id) := by
  refine ⟨hp, ?_, ?_⟩
  · show validStatus td.status
    rw [hs]
    exact Or.inl rfl
  · show (none : Option Nat).isSome = true ↔ td.status = "completed"
    rw [hs]
    simp

theorem postTask_invariant (body : PostBody) (s : TaskSuggestion) (p : ParsedTask)
    (now id : Nat) (t : Task)
    (hs : 1 ≤ s.priority ∧ s.priority ≤ 3) (hp : 1 ≤ p.priority ∧ p.priority ≤ 3)
    (h : postTask body s p now id = some t) : TaskInvariant t := by
  unfold postTask at h
  cases hd : postTaskData body s p with
  | none =>
    rw [hd] at h
    exact absurd h (by simp)
  | some td =>
    rw [hd] at h
    simp only [Option.map_some', Option.some.injEq] at h
    subst h
    apply createTask_invariant
    · rcases postTaskData_priority body s p td hd with h3 | hpp | hsp
      · rw [h3]
        exact ⟨by norm_num, le_refl 3⟩
      · rw [hpp]
        exact hp
      · rw [hsp]
        exact hs
    · exact postTaskData_status body s p td hd

theorem putUpdates_invariant (t : Task) (body : PutBody) (now : Nat)
    (ht : TaskInvariant t)
    (hpr : ∀ pr, body.priority = some pr → 1 ≤ pr ∧ pr ≤ 3)
    (hst : ∀ st, body.status = some st → validStatus st)
    (hunc : ∀ st, body.status = some st → st ≠ "completed" → t.status ≠ "completed") :
    TaskInvariant (applySet t (putUpdates body now) now) := by
  obtain ⟨⟨hp1, hp2⟩, hvs, hca⟩ := ht
  refine ⟨?_, ?_, ?_⟩
  · show 1 ≤ (body.priority).getD t.priority ∧ (body.priority).getD t.priority ≤ 3
    cases hbp : body.priority with
    | none => exact ⟨hp1, hp2⟩
    | some pr => exact hpr pr hbp
  · show validStatus ((body.status).getD t.status)
    cases hbs : body.status with
    | none => exact hvs
    | some st => exact hst st hbs
  · show (match (if body.status = some "completed" then some now else none : Option Nat) with
        | some c => some c
        | none => t.completed_at).isSome = true ↔ (body.status).getD t.status = "completed"
    cases hbs : body.status with
    | none =>
      simp only [Option.getD_none]
      have : ¬ ((none : Option String) = some "completed") := by simp
      rw [if_neg this]
      exact hca
    | some st =>
      by_cases hc : st = "completed"
      · subst hc
        rw [if_pos rfl]
        simp
      · have : ¬ ((some st : Option String) = some "completed") := by simp [hc]
        rw [if_neg this]
        simp only [Option.getD_some]
        have hnone : t.completed_at = none := by
          rcases h : t.completed_at with _ | c
          · rfl
          · exact absurd (hunc st hbs hc) (by simp [hca.mp (by simp [h])])
        rw [hnone]
        simp [hc]

theorem applyOp_invariant (tasks : List Task) (op : TaskOp)
    (h0 : ∀ t ∈ tasks, TaskInvariant t) (hop : okOp tasks op = true) :
    ∀ t ∈ applyOp tasks op, TaskInvariant t := by
  cases op with
  | post body s p now id =>
    intro t ht
    simp only [applyOp] at ht
    cases hpt : postTask body s p now id with
    | none =>
      rw [hpt] at ht
      exact h0 t ht
    | some tn =>
      rw [hpt] at ht
      rcases List.mem_append.mp ht with h | h
      · exact h0 t h
      · have heq : t = tn := by simpa using h
        subst heq
        simp only [okOp, Bool.and_eq_true, decide_eq_true_eq] at hop
        exact postTask_invariant body s p now id t ⟨hop.1.1.1, hop.1.1.2⟩ ⟨hop.1.2, hop.2⟩ hpt
  | put id body now =>
    intro t ht
    simp only [applyOp, putTask, Database.updateTask] at ht
    rcases List.mem_map.mp ht with ⟨t0, ht0, rfl⟩
    simp only [okOp, Bool.and_eq_true] at hop
    obtain ⟨hopp, hops⟩ := hop
    by_cases hid : t0.id = id
    · rw [if_pos hid]
      apply putUpdates_invariant t0 body now (h0 t0 ht0)
      · intro pr hpr
        rw [hpr] at hopp
        simpa using hopp
      · intro st hstq
        rw [hstq] at hops
        simp only [Bool.and_eq_true, decide_eq_true_eq] at hops
        exact hops.1
      · intro st hstq hne
        rw [hstq] at hops
        simp only [Bool.and_eq_true, Bool.or_eq_true, decide_eq_true_eq] at hops
        rcases hops.2 with hcomp | hall
        · exact absurd (by simpa using hcomp) hne
        · have := List.all_eq_true.mp hall t0 ht0
          simp only [Bool.or_eq_true, Bool.not_eq_true', beq_eq_false_iff_ne, ne_eq] at this
          rcases this with h | h
          · exact absurd hid h
          · exact h
    · rw [if_neg hid]
      exact h0 t0 ht0

/-- Default row used to read concrete `Option` results in closed statements. -/
def blankTask : Task :=
  { id := 0
    user_id := 0
    title := ""
    description := none
    priority := 3
    status := "pending"
    deadline := none
    ai_suggested_priority := none
    ai_suggested_deadline := none
    context_tags := none
    created_at := 0
    updated_at := 0
    completed_at := none }

/-- A stored pending task used by the concrete scenarios. -/
def taskOne : Task :=
  { id := 1
    user_id := 1
    title := "Prepare slides"
    description := some "for the review"
    priority := 2
    status := "pending"
    deadline := some 30
    ai_suggested_priority := none
    ai_suggested_deadline := none
    context_tags := some ["work"]
    created_at := 3
    updated_at := 3
    completed_at := none }

/-- A one-row tasks table. -/
def tasksA : List Task := [taskOne]

/-- A PUT body that only updates the title. -/
def updTitle : TaskUpdates :=
  { title := some "x"
    description := none
    priority := none
    status := none
    deadline := none
    completed_at := none }

/-- A gateway suggestion fixture. -/
def suggestionHigh : TaskSuggestion :=
  { priority := 1
    deadline := some 20
    reasoning := "deadline mentioned in context"
    contextTags := ["work"] }

/-- A natural-language parse fixture. -/
def parsedFix : ParsedTask :=
  { title := "Prepare review slides"
    description := "Slides for the quarterly review"
    priority := 1
    deadline := some 40
    contextTags := ["work"] }

/-- POST body that supplies an explicit priority 1 with both AI switches off. -/
def plainPriorityBody : PostBody :=
  { userId := some 1
    title := some "Buy milk"
    description := some "weekly run"
    priority := some 1
    status := none
    completed_at := none
    useAI := false
    naturalLanguage := false }

/-- C1: the claim says a plain create (useAI and naturalLanguage both false)
persists the caller-supplied priority, defaulting to 3 only when omitted.  The
handler never destructures `priority` from the request body, so the persisted
priority is 3 even when the caller supplies priority 1 — while the repository's
own task form posts a user-chosen `priority` field on exactly this path.  This
theorem evaluates the POST route at that failing input. -/
theorem post_ignores_caller_priority :
    plainPriorityBody.priority = some 1 ∧
    (postTask plainPriorityBody suggestionHigh parsedFix 5 1).isSome = true ∧
    ((postTask plainPriorityBody suggestionHigh parsedFix 5 1).getD blankTask).priority = 3 ∧
    ((postTask plainPriorityBody suggestionHigh parsedFix 5 1).getD blankTask).title
      = "Buy milk" ∧
    ((postTask plainPriorityBody suggestionHigh parsedFix 5 1).getD blankTask).description
      = some "weekly run" ∧
    ((postTask plainPriorityBody suggestionHigh parsedFix 5 1).getD blankTask).deadline
      = none ∧
    ((postTask plainPriorityBody suggestionHigh parsedFix 5 1).getD
      blankTask).ai_suggested_priority = none ∧
    ((postTask plainPriorityBody suggestionHigh parsedFix 5 1).getD
      blankTask).ai_suggested_deadline = none := by
  decide

/-- C2 (amended), the preserved part: starting from a table of valid tasks,
any trace of POST /tasks and PUT /tasks/[id] requests preserves the Task
invariant, provided each request is well-formed in the sense of `okOp`: the
gateway outputs carry a priority in {1,2,3} (the zod bound), and a PUT
supplies only a priority in {1,2,3} and a valid status, and supplies a
non-completed status only for tasks that are not currently completed (the
route never clears `completed_at`, so un-completing a task breaks the
invariant — see the counterexample). -/
theorem taskInvariant_preserved (tasks : List Task) (ops : List TaskOp)
    (h0 : ∀ t ∈ tasks, TaskInvariant t) (hops : okTrace tasks ops = true) :
    ∀ t ∈ applyOps tasks ops, TaskInvariant t := by
  induction ops generalizing tasks with
  | nil => simpa [applyOps] using h0
  | cons op ops ih =>
    simp only [okTrace, Bool.and_eq_true] at hops
    simp only [applyOps]
    exact ih (applyOp tasks op) (applyOp_invariant tasks op h0 hops.1) hops.2

/-- PUT body that marks the task completed. -/
def putCompleted : PutBody :=
  { title := none
    description := none
    priority := none
    status := some "completed"
    deadline := none }

/-- PUT body that moves the task back to pending (the checkbox un-toggle the
task list component sends). -/
def putPending : PutBody :=
  { title := none
    description := none
    priority := none
    status := some "pending"
    deadline := none }

/-- Complete then un-complete the task with id 1. -/
def uncompleteTrace : List TaskOp :=
  [TaskOp.put 1 putCompleted 4, TaskOp.put 1 putPending 5]

/-- C2 counterexample: starting from a valid pending task, the sequence
PUT status=completed then PUT status=pending (both through the real route)
ends in a task whose status is pending but whose completed_at is still set,
violating the invariant the claim says every such sequence preserves. -/
theorem put_uncomplete_breaks_invariant :
    TaskInvariant taskOne ∧
    ¬ TaskInvariant ((applyOps tasksA uncompleteTrace).headD blankTask) ∧
    ((applyOps tasksA uncompleteTrace).headD blankTask).status = "pending" ∧
    ((applyOps tasksA uncompleteTrace).headD blankTask).completed_at = some 4 := by
  decide

/-- Trace that just completes task 1. -/
def completeTrace : List TaskOp := [TaskOp.put 1 putCompleted 4]

/-- Witness for C2: the preservation theorem applied to the concrete one-task
table and the one-request completing trace. -/
theorem taskInvariant_preserved_witness :
    TaskInvariant ((applyOps tasksA completeTrace).headD blankTask) :=
  taskInvariant_preserved tasksA completeTrace (by decide) (by decide)
    ((applyOps tasksA completeTrace).headD blankTask) (by decide)

theorem taskLE_bucket_mono (a b : Task) (h : taskOrd a b)
    (hc : completedBucket a = 1) : completedBucket b = 1 := by
  have hb := completedBucket_le_one b
  simp only [taskOrd, taskLE, Bool.or_eq_true, Bool.and_eq_true, decide_eq_true_eq] at h
  omega

theorem taskLE_priority_mono (a b : Task) (h : taskOrd a b)
    (hc : completedBucket a = completedBucket b) : a.priority ≤ b.priority := by
  simp only [taskOrd, taskLE, Bool.or_eq_true, Bool.and_eq_true, decide_eq_true_eq] at h
  omega

/-- C3: `Database.getTasks userId` returns a permutation of exactly the user's
tasks, pairwise ordered by the contract comparator `taskOrd` (completed last,
then ascending priority, then ascending deadline with NULL deadlines last,
then descending creation time); in particular a completed task never precedes
a non-completed one, and within the same completion bucket priority is
non-decreasing. -/
theorem getTasks_ordering (userId : Nat) (tasks : List Task) :
    (Database.getTasks userId tasks).Perm (tasks.filter (fun t => t.user_id == userId)) ∧
    (Database.getTasks userId tasks).Pairwise taskOrd ∧
    (Database.getTasks userId tasks).Pairwise
      (fun a b => completedBucket a = 1 → completedBucket b = 1) ∧
    (Database.getTasks userId tasks).Pairwise
      (fun a b => completedBucket a = completedBucket b → a.priority ≤ b.priority) := by
  have hs : (Database.getTasks userId tasks).Pairwise taskOrd :=
    List.sorted_insertionSort taskOrd _
  exact ⟨List.perm_insertionSort taskOrd _, hs,
    hs.imp (fun h hc => taskLE_bucket_mono _ _ h hc),
    hs.imp (fun h hc => taskLE_priority_mono _ _ h hc)⟩

/-- C4: when the id exists, `Database.updateTask` returns the updated row,
whose fields are exactly: each of title/description/priority/status/deadline/
completed_at taken from the update when present and kept from the old row when
absent (never null-overwritten), `updated_at` always refreshed to the
statement time, and every other column (id, user_id, created_at, context_tags
and the AI advisory fields) untouched. -/
theorem updateTask_frame (tasks : List Task) (id : Nat) (u : TaskUpdates) (now : Nat)
    (t : Task) (h : Database.findTask tasks id = some t) :
    (Database.updateTask tasks id u now).2.map Task.title = some (u.title.getD t.title) ∧
    (Database.updateTask tasks id u now).2.map Task.description
      = some (u.description.or t.description) ∧
    (Database.updateTask tasks id u now).2.map Task.priority
      = some (u.priority.getD t.priority) ∧
    (Database.updateTask tasks id u now).2.map Task.status
      = some (u.status.getD t.status) ∧
    (Database.updateTask tasks id u now).2.map Task.deadline
      = some (u.deadline.or t.deadline) ∧
    (Database.updateTask tasks id u now).2.map Task.completed_at
      = some (u.completed_at.or t.completed_at) ∧
    (Database.updateTask tasks id u now).2.map Task.updated_at = some now ∧
    (Database.updateTask tasks id u now).2.map Task.id = some t.id ∧
    (Database.updateTask tasks id u now).2.map Task.user_id = some t.user_id ∧
    (Database.updateTask tasks id u now).2.map Task.created_at = some t.created_at ∧
    (Database.updateTask tasks id u now).2.map Task.context_tags = some t.context_tags ∧
    (Database.updateTask tasks id u now).2.map Task.ai_suggested_priority
      = some t.ai_suggested_priority ∧
    (Database.updateTask tasks id u now).2.map Task.ai_suggested_deadline
      = some t.ai_suggested_deadline := by
  cases hd : u.description <;> cases hdl : u.deadline <;> cases hc : u.completed_at <;>
    simp [Database.updateTask, h, applySet, hd, hdl, hc, Option.or]

/-- Witness for C4: the frame theorem applied to the one-task table and the
title-only update; the title changes, priority/status/deadline are kept,
updated_at is refreshed. -/
theorem updateTask_frame_witness :
    (Database.updateTask tasksA 1 updTitle 7).2.map Task.title = some "x" ∧
    (Database.updateTask tasksA 1 updTitle 7).2.map Task.priority = some taskOne.priority ∧
    (Database.updateTask tasksA 1 updTitle 7).2.map Task.status = some taskOne.status ∧
    (Database.updateTask tasksA 1 updTitle 7).2.map Task.deadline = some taskOne.deadline ∧
    (Database.updateTask tasksA 1 updTitle 7).2.map Task.updated_at = some 7 := by
  have h := updateTask_frame tasksA 1 updTitle 7 taskOne (by decide)
  exact ⟨h.1, h.2.2.1, h.2.2.2.1, h.2.2.2.2.1, h.2.2.2.2.2.2.1⟩

/-- C5 counterexample: on a table containing only the task with id 1,
`updateTask` on the missing id 2 raises no NotFound failure: it returns an
absent row (`undefined` in the source, `none` here) and leaves the table
unchanged, contradicting the claim that the operation fails with NotFound
rather than returning an absent value. -/
theorem updateTask_missing_returns_absent :
    Database.findTask tasksA 2 = none ∧
    Database.updateTask tasksA 2 updTitle 7 = (tasksA, none) := by
  decide

/-- C5 (amended): for every id with no matching task, `Database.updateTask`
succeeds without error, returns an absent row, and leaves the store
unchanged. -/
theorem updateTask_missing (tasks : List Task) (id : Nat) (u : TaskUpdates) (now : Nat)
    (h : Database.findTask tasks id = none) :
    Database.updateTask tasks id u now = (tasks, none) := by
  have hall := List.find?_eq_none.mp h
  unfold Database.updateTask
  rw [h]
  have hmap : ∀ (l : List Task), (∀ x ∈ l, ¬ (x.id == id) = true) →
      l.map (fun t => if t.id = id then applySet t u now else t) = l := by
    intro l
    induction l with
    | nil => intro _; rfl
    | cons a l ih =>
      intro hl
      have hne : ¬ a.id = id := by simpa using hl a (List.mem_cons_self a l)
      simp only [List.map_cons, if_neg hne, List.cons.injEq, true_and]
      exact ih (fun x hx => hl x (List.mem_cons_of_mem a hx))
  rw [hmap tasks hall]
  rfl

/-- Witness for C5 (amended): a concrete miss on id 2. -/
theorem updateTask_missing_witness :
    Database.updateTask tasksA 2 updTitle 9 = (tasksA, none) :=
  updateTask_missing tasksA 2 updTitle 9 (by decide)

/-- C6: for a create request with useAI true and naturalLanguage false, with a
well-formed body (userId and title present and truthy) and a schema-validated
suggestion (priority within the zod bound `[1, 3]`), the persisted task
carries the suggested priority both as the authoritative `priority` and as the
advisory `ai_suggested_priority`; and when the suggestion carries a deadline
(a nonempty ISO string, encoded as a nonzero value), it is stored both as the
authoritative `deadline` and as the advisory `ai_suggested_deadline`. -/
theorem post_useAI_promotes (body : PostBody) (s : TaskSuggestion) (p : ParsedTask)
    (now id uid : Nat) (ttl : String)
    (hAI : body.useAI = true) (hNL : body.naturalLanguage = false)
    (hu : body.userId = some uid) (hu0 : uid ≠ 0)
    (ht : body.title = some ttl) (ht0 : ttl ≠ "")
    (hp : 1 ≤ s.priority ∧ s.priority ≤ 3) :
    (postTask body s p now id).map Task.priority = some s.priority ∧
    (postTask body s p now id).map Task.ai_suggested_priority = some (some s.priority) ∧
    (∀ d, s.deadline = some d → d ≠ 0 →
      (postTask body s p now id).map Task.deadline = some (some d) ∧
      (postTask body s p now id).map Task.ai_suggested_deadline = some (some d)) := by
  have hne : ¬ (uid = 0 ∨ ttl = "") := by
    rintro (h | h)
    · exact hu0 h
    · exact ht0 h
  have hp0 : ¬ s.priority = 0 := by omega
  have hpost : postTaskData body s p =
      some { baseTaskData uid ttl (body.description.getD "") with
        ai_suggested_priority := some s.priority
        ai_suggested_deadline := s.deadline
        priority := s.priority
        context_tags := s.contextTags
        deadline := match s.deadline with
          | some d => if d = 0 then none else some d
          | none => none } := by
    unfold postTaskData
    rw [hu, ht, hNL, hAI]
    simp [hne]
  refine ⟨?_, ?_, ?_⟩
  · simp [postTask, hpost, Database.createTask]
  · simp [postTask, hpost, Database.createTask, orNullInt, hp0]
  · intro d hd hd0
    constructor
    · simp [postTask, hpost, Database.createTask, orNullNat, hd, hd0]
    · simp [postTask, hpost, Database.createTask, orNullNat, hd, hd0]

/-- POST body for the AI-suggested creation scenario. -/
def useAIBody : PostBody :=
  { userId := some 1
    title := some "Ship the report"
    description := some "gather metrics"
    priority := none
    status := none
    completed_at := none
    useAI := true
    naturalLanguage := false }

/-- Witness for C6: the AI-suggested creation scenario with the mocked
suggestion priority 1, deadline 20: the persisted task has priority 1,
ai_suggested_priority 1, deadline 20, ai_suggested_deadline 20. -/
theorem post_useAI_promotes_witness :
    (postTask useAIBody suggestionHigh parsedFix 5 1).map Task.priority = some 1 ∧
    (postTask useAIBody suggestionHigh parsedFix 5 1).map Task.ai_suggested_priority
      = some (some 1) ∧
    (postTask useAIBody suggestionHigh parsedFix 5 1).map Task.deadline = some (some 20) ∧
    (postTask useAIBody suggestionHigh parsedFix 5 1).map Task.ai_suggested_deadline
      = some (some 20) := by
  have h := post_useAI_promotes useAIBody suggestionHigh parsedFix 5 1 1 "Ship the report"
    rfl rfl rfl (by decide) rfl (by decide) (by decide)
  have hd := h.2.2 20 rfl (by decide)
  exact ⟨h.1, h.2.1, hd.1, hd.2⟩

/-- C7: `AIService.recommendTasks` on an empty context-entry list returns the
empty recommendation list without invoking the external service (the invoked
flag is false), for every existing-task list and every external-service
oracle. -/
theorem recommendTasks_short_circuit (existingTasks : List Task)
    (service : String → String → List Recommendation) :
    AIService.recommendTasks [] existingTasks service = ([], false) := rfl

/-- The spec's trailing window for claim C8, modelled from the spec's words:
entry_date within the window of `days` days ending `today`, inclusive. -/
def specTrailingWindow (today days d : Nat) : Prop :=
  today - days ≤ d ∧ d ≤ today

instance specTrailingWindow.dec (today days d : Nat) :
    Decidable (specTrailingWindow today days d) := by
  unfold specTrailingWindow
  infer_instance

/-- A context entry dated one day in the future of `today = 10`. -/
def futureEntry : ContextEntry :=
  { id := 1
    user_id := 1
    content := "kickoff tomorrow"
    entry_type := "note"
    entry_date := 11
    created_at := 2 }

/-- C8 counterexample: the WHERE clause of `Database.getContextEntries` is
only a lower bound on entry_date, so an entry dated after today is returned
even though it is outside the trailing window of 7 days ending today; the
result is therefore not exactly the entries within that window. -/
theorem getContextEntries_returns_future_entry :
    Database.getContextEntries 1 10 7 [futureEntry] = [futureEntry] ∧
    ¬ specTrailingWindow 10 7 futureEntry.entry_date := by
  decide

/-- C8 (amended): `Database.getContextEntries userId today days` returns
exactly the user's entries whose entry_date is at least `today - days`
(inclusive; there is no upper bound, so future-dated entries are included
too), ordered by descending entry_date and then descending created_at
(pairwise `ctxOrd`). -/
theorem getContextEntries_spec (userId today days : Nat) (entries : List ContextEntry) :
    (Database.getContextEntries userId today days entries).Perm
      (entries.filter
        (fun e => e.user_id == userId && decide (today - days ≤ e.entry_date))) ∧
    (Database.getContextEntries userId today days entries).Pairwise ctxOrd :=
  ⟨List.perm_insertionSort ctxOrd _, List.sorted_insertionSort ctxOrd _⟩

/-- C9: `Database.deleteTask` is idempotent: deleting an id with no matching
task (in particular, deleting the same id a second time) succeeds and leaves
the table unchanged. -/
theorem deleteTask_idempotent (tasks : List Task) (id : Nat) :
    (Database.findTask tasks id = none → Database.deleteTask tasks id = tasks) ∧
    Database.deleteTask (Database.deleteTask tasks id) id = Database.deleteTask tasks id := by
  constructor
  · intro h
    have hall := List.find?_eq_none.mp h
    unfold Database.deleteTask
    apply List.filter_eq_self.mpr
    intro t ht
    simpa using hall t ht
  · unfold Database.deleteTask
    rw [List.filter_filter]
    simp

/-- Witness for C9: deleting the absent id 2 from the one-task table returns
the table unchanged, and a second delete of id 1 after the first is a
no-op. -/
theorem deleteTask_idempotent_witness :
    Database.deleteTask tasksA 2 = tasksA ∧
    Database.deleteTask (Database.deleteTask tasksA 1) 1 = Database.deleteTask tasksA 1 :=
  ⟨(deleteTask_idempotent tasksA 2).1 (by decide), (deleteTask_idempotent tasksA 1).2⟩

/-- C10: every task the POST /tasks endpoint persists has status "pending" and
an unset completed_at, whatever the request body contains (including a
`status` or `completed_at` field, which the handler never reads) and whichever
creation branch (plain, useAI, naturalLanguage) runs. -/
theorem post_sets_pending (body : PostBody) (s : TaskSuggestion) (p : ParsedTask)
    (now id : Nat) (t : Task) (h : postTask body s p now id = some t) :
    t.status = "pending" ∧ t.completed_at = none := by
  unfold postTask at h
  cases hd : postTaskData body s p with
  | none =>
    rw [hd] at h
    exact absurd h (by simp)
  | some td =>
    rw [hd] at h
    simp only [Option.map_some', Option.some.injEq] at h
    subst h
    exact ⟨postTaskData_status body s p td hd, rfl⟩

/-- POST body that tries to create a task born completed. -/
def bornCompletedBody : PostBody :=
  { userId := some 1
    title := some "already done"
    description := none
    priority := some 2
    status := some "completed"
    completed_at := some 9
    useAI := false
    naturalLanguage := false }

/-- Witness for C10: even a body carrying status "completed" and a
completed_at value yields a pending task with completed_at unset. -/
theorem post_sets_pending_witness :
    ((postTask bornCompletedBody suggestionHigh parsedFix 5 1).getD blankTask).status
      = "pending" ∧
    ((postTask bornCompletedBody suggestionHigh parsedFix 5 1).getD blankTask).completed_at
      = none :=
  post_sets_pending bornCompletedBody suggestionHigh parsedFix 5 1
    ((postTask bornCompletedBody suggestionHigh parsedFix 5 1).getD blankTask) (by decide)

end SmartTodo
